import Mathlib

/-!
Verification of the cf-common progress logger.

Shallow embedding of the repository's two cores:

* the Redis value-persistence strategies (`RedisFlattenStrategy`,
  `RedisSetStratry`, `ChainRedisStrategy`);
* the Firebase-backed `TaskLogger` step/job state machine.

JavaScript values flowing through the strategies are modelled by `JsVal`
(strings, numbers, booleans and plain objects as association lists — the only
shapes the code distinguishes via `typeof`).  Redis side effects become an
explicit list of `RedisCmd`s; the mutable path stack is threaded through as an
explicit `List String` whose JS `pop()` is `getLastD`/`dropLast`.

The TaskLogger's mutable closure state becomes `JobState`; each handler
operation is a function `JobState → … → OpOut` returning the new state together
with the list of store writes issued and the list of events emitted
synchronously.  Timestamps are an abstract `Nat` clock passed in by the caller
(`new Date()` in the source).
-/

namespace CfCommon

/-- A JavaScript value, restricted to the shapes the strategies inspect with
`typeof`: strings, numbers, booleans, and plain objects (ordered field lists,
matching `Object.keys` insertion order). -/
inductive JsVal where
  | vStr (s : String)
  | vNum (n : Int)
  | vBool (b : Bool)
  | vObj (fields : List (String × JsVal))
deriving Repr

/-- `typeof v === 'string'`. -/
def JsVal.typeofIsString : JsVal → Bool
  | .vStr _ => true
  | _ => false

/-- `typeof v === 'object'`. -/
def JsVal.typeofIsObject : JsVal → Bool
  | .vObj _ => true
  | _ => false

/-- A command issued to the Redis client. -/
inductive RedisCmd where
  | rpush (key : String) (v : JsVal)
  | hmset (key : String) (kvs : List JsVal)
  | set (key : String) (v : JsVal)
deriving Repr

/-- Result of one strategy's `push`: whether it claimed the write (its JS
return value), the Redis commands it issued, and the path stack after any
in-place `pop()` mutations. -/
structure PushResult where
  handled : Bool
  cmds : List RedisCmd
  stack : List String
deriving Repr

/-- `RedisFlattenStrategy` from the source: holds the set of recognized
list-field names (a JS `Set`, modelled as a list with membership). -/
structure RedisFlattenStrategy where
  keys : List String
deriving Repr, DecidableEq

/-- `RedisFlattenStrategy.prototype.push`: claims the write iff the stack has
exactly one entry, the value is a string, and `keys.has(stack[0])`; then
`rpush`es the value onto the list at key `key + ":" + stack.pop()`. -/
def RedisFlattenStrategy.push (self : RedisFlattenStrategy) (obj : JsVal)
    (key : String) (stack : List String) : PushResult :=
  if stack.length == 1 && obj.typeofIsString && self.keys.contains (stack.headD ("")) then
    { handled := true
      cmds := [RedisCmd.rpush (key ++ ":" ++ stack.getLastD ("")) obj]
      stack := stack.dropLast }
  else
    { handled := false, cmds := [], stack := stack }

/-- The `reduce` in `RedisSetStratry.push` flattening an object's fields into
the alternating `[k1, v1, k2, v2, ...]` array handed to `hmset`. -/
def flattenFields (fields : List (String × JsVal)) : List JsVal :=
  fields.foldl (fun acc kv => acc ++ [JsVal.vStr kv.1, kv.2]) []

/-- `RedisSetStratry.prototype.push` (catch-all): a non-object value with a
non-empty stack is first wrapped as `{stack.pop(): value}`; an object value is
written with `hmset` (fields flattened); a remaining scalar with `set`.
Always returns `true`. -/
def RedisSetStratry.push (obj : JsVal) (key : String) (stack : List String) : PushResult :=
  let wrapped : JsVal × List String :=
    if !obj.typeofIsObject && stack.length != 0 then
      (JsVal.vObj [(stack.getLastD (""), obj)], stack.dropLast)
    else
      (obj, stack)
  match wrapped with
  | (JsVal.vObj fields, stack2) =>
      { handled := true, cmds := [RedisCmd.hmset key (flattenFields fields)], stack := stack2 }
  | (v, stack2) =>
      { handled := true, cmds := [RedisCmd.set key v], stack := stack2 }

/-- `ChainRedisStrategy.prototype.push`: `Array.prototype.some` over the
strategies, short-circuiting at the first claimed write; the shared stack is
threaded through every strategy actually invoked.  Returns the accumulated
Redis commands and the final stack. -/
def ChainRedisStrategy.push :
    List (JsVal → String → List String → PushResult) →
    JsVal → String → List String → List RedisCmd × List String
  | [], _, _, stack => ([], stack)
  | s :: rest, obj, key, stack =>
    let r := s obj key stack
    if r.handled then
      (r.cmds, r.stack)
    else
      let tail := ChainRedisStrategy.push rest obj key r.stack
      (r.cmds ++ tail.1, tail.2)

/-! ## TaskLogger -/

/-- Step/job status values (the `STATUS` constant object). -/
inductive Status where
  | pending
  | running
  | success
  | error
  | skipped
  | warning
deriving Repr, DecidableEq

/-- Rendering used when a status is interpolated into an error message
(`util.format`'s `%s`). -/
def Status.str : Status → String
  | .pending => "pending"
  | .running => "running"
  | .success => "success"
  | .error => "error"
  | .skipped => "skipped"
  | .warning => "warning"

/-- Whether a status is terminal (the spec's terminal set). -/
def Status.isTerminal : Status → Bool
  | .success | .error | .skipped | .warning => true
  | .pending | .running => false

/-- The in-memory step object kept in the `steps` map.  `refId` models the
Firebase reference handle returned by `stepsRef.push(step)` (a fresh handle per
pushed entity).  `logs` mirrors the in-memory `logs: {}` field, which the
source never mutates after creation — log lines go straight to the store
(see `StoreWrite.pushLog`).  `hasWarning` is absent (falsy) at creation. -/
structure Step where
  name : String
  id : String
  creationTimeStamp : Nat
  status : Status
  finishTimeStamp : Option Nat
  hasWarning : Bool
  logs : List String
  refId : Nat
deriving Repr, DecidableEq

/-- One write issued to the remote (Firebase) store.  Step-level writes are
keyed by the step's reference handle `refId`; job-level writes go through
`progressRef`.  `updateStep` carries the fields of
`firebaseRef.update({status, finishTimeStamp})`, with `none` standing for the
empty-string "cleared" value. -/
inductive StoreWrite where
  | pushStep (ref : Nat) (st : Step)
  | updateStep (ref : Nat) (status : Status) (finishTimeStamp : Option Nat)
  | pushLog (ref : Nat) (line : String)
  | setJobStatus (status : Status)
  | setLastUpdate (t : Nat)
  | setCreationTimeStamp (ref : Nat) (t : Nat)
deriving Repr, DecidableEq

/-- An event emitted synchronously on the TaskLogger's `EventEmitter` surface.
(The asynchronous `"step-pushed"` acknowledgement fires from a store callback
and is outside this synchronous model.) -/
inductive JsEvent where
  | errorEvent (msg : String)
deriving Repr, DecidableEq

/-- Constructor arguments captured by the TaskLogger closure.  The optional
`initializeStepReference` pre-step and the fire-and-forget `eventReporting`
HTTP POST are not modelled: neither touches job/step state or the store
writes the claims are about. -/
structure Config where
  jobId : String
  baseFirebaseUrl : String
  firstStepCreationTime : Option Nat
deriving Repr, DecidableEq

/-- The TaskLogger's mutable closure state: the `fatal` and `finished`
latches, the `steps` map (association list keyed by `id || name`), the
job-level `handler` variable (modelled by the key of the step the current
handler closes over), and a counter for fresh store reference handles. -/
structure JobState where
  fatal : Bool
  finished : Bool
  steps : List (String × Step)
  handler : Option String
  nextRef : Nat
deriving Repr, DecidableEq

/-- A handle returned by `create`: either the null object returned when the
job is fatal/finished, or a live handler closing over the step at `key`. -/
inductive StepHandle where
  | inert
  | active (key : String)
deriving Repr, DecidableEq

/-- The method names a StepHandle may expose. -/
inductive Method where
  | start
  | write
  | debug
  | info
  | warn
  | finish
  | resetCreationTimeStamp
  | getStatus
  | getReference
  | getLogsReference
  | getLastUpdateReference
deriving Repr, DecidableEq

/-- The methods the null-object handle actually defines (the object literal
returned when `fatal || finished`): the three reference getters plus
`write`, `debug`, `warn`, `info`, `finish`.  Note `start`,
`resetCreationTimeStamp` and `getStatus` are NOT among them. -/
def nullHandleMethods : List Method :=
  [Method.getReference, Method.getLogsReference, Method.getLastUpdateReference,
   Method.write, Method.debug, Method.warn, Method.info, Method.finish]

/-- Method lookup on a handle: JS property access.  Invoking a method the
object does not define throws a `TypeError` at the call site. -/
def StepHandle.hasMethod : StepHandle → Method → Bool
  | .inert, m => nullHandleMethods.contains m
  | .active _, _ => true

/-- Result of one synchronous operation: the new closure state, the store
writes issued (in order), and the events emitted. -/
structure OpOut where
  state : JobState
  writes : List StoreWrite
  events : List JsEvent
deriving Repr, DecidableEq

/-- An operation that returns without doing anything. -/
def noopOut (s : JobState) : OpOut :=
  { state := s, writes := [], events := [] }

/-- The `steps` map key: `id || name` (an absent id is the empty string). -/
def stepKey (name id : String) : String :=
  if id = "" then name else id

/-- `steps[key]` lookup. -/
def lookupStep (steps : List (String × Step)) (k : String) : Option Step :=
  (steps.find? (fun p => p.1 == k)).map Prod.snd

/-- In-place mutation of the step object stored under `k`. -/
def updateStepEntry (steps : List (String × Step)) (k : String) (st : Step) :
    List (String × Step) :=
  steps.map (fun p => if p.1 == k then (k, st) else p)

/-- Number of entries stored under key `k`. -/
def countKey (steps : List (String × Step)) (k : String) : Nat :=
  (steps.filter (fun p => p.1 == k)).length

/-- The log lines a store-write trace has pushed for the step with reference
handle `ref` (the append-only `logs` child in the store). -/
def stepLogsInStore (trace : List StoreWrite) (ref : Nat) : List String :=
  trace.filterMap (fun w =>
    match w with
    | StoreWrite.pushLog r line => if r == ref then some line else none
    | _ => none)

/-- State of a freshly constructed TaskLogger (no `initializeStepReference`). -/
def initState : JobState :=
  { fatal := false, finished := false, steps := [], handler := none, nextRef := 0 }

namespace TaskLogger

/-- `create(name, id)`.  When the job is fatal or finished it returns the
null-object handle and touches nothing.  Otherwise it either allocates a fresh
pending step (pushing it to the store, honoring the `firstStepCreationTime`
override for the very first step) or resets the existing step's status to
pending, updating the persisted record with a cleared `finishTimeStamp` — the
in-memory step object keeps every other field, including its old
`finishTimeStamp`.  Finally the job-level `handler` variable is set to a new
handler closing over the step. -/
def create (cfg : Config) (s : JobState) (name id : String) (now : Nat) :
    OpOut × StepHandle :=
  if s.fatal || s.finished then
    (noopOut s, StepHandle.inert)
  else
    let key := stepKey name id
    match lookupStep s.steps key with
    | none =>
        let cts : Nat :=
          match cfg.firstStepCreationTime with
          | some t => if s.steps.isEmpty then t else now
          | none => now
        let st : Step :=
          { name := name, id := id, creationTimeStamp := cts,
            status := Status.pending, finishTimeStamp := none,
            hasWarning := false, logs := [], refId := s.nextRef }
        let s' : JobState :=
          { s with steps := s.steps ++ [(key, st)],
                   nextRef := s.nextRef + 1,
                   handler := some key }
        ({ state := s', writes := [StoreWrite.pushStep st.refId st], events := [] },
         StepHandle.active key)
    | some st =>
        let st' : Step := { st with status := Status.pending }
        let s' : JobState :=
          { s with steps := updateStepEntry s.steps key st', handler := some key }
        ({ state := s',
           writes := [StoreWrite.updateStep st.refId Status.pending none],
           events := [] },
         StepHandle.active key)

end TaskLogger

namespace Handler

/-- `handler.start()`: guarded by `fatal`; pending → running, persisting the
new status to the job-level `status` child; otherwise emits an error event. -/
def start (s : JobState) (h : StepHandle) : OpOut :=
  match h with
  | .inert => noopOut s
  | .active key =>
    if s.fatal then noopOut s
    else
      match lookupStep s.steps key with
      | none => noopOut s
      | some st =>
        if st.status = Status.pending then
          { state := { s with steps := updateStepEntry s.steps key { st with status := Status.running } }
            writes := [StoreWrite.setJobStatus Status.running]
            events := [] }
        else
          { state := s, writes := []
            events := [JsEvent.errorEvent
              ("progress-logs start handler was triggered when the step status is: " ++ st.status.str)] }

/-- `handler.write(message)`: guarded by `fatal`; while pending/running pushes
the raw message to the step's log and touches `lastUpdate`; otherwise emits an
error event. -/
def write (s : JobState) (h : StepHandle) (message : String) (now : Nat) : OpOut :=
  match h with
  | .inert => noopOut s
  | .active key =>
    if s.fatal then noopOut s
    else
      match lookupStep s.steps key with
      | none => noopOut s
      | some st =>
        if st.status = Status.running ∨ st.status = Status.pending then
          { state := s
            writes := [StoreWrite.pushLog st.refId message, StoreWrite.setLastUpdate now]
            events := [] }
        else
          { state := s, writes := []
            events := [JsEvent.errorEvent
              ("progress-logs write handler was triggered after the job finished with message: " ++ message)] }

/-- `handler.debug(message)`: like `write` but appends a CRLF. -/
def debug (s : JobState) (h : StepHandle) (message : String) (now : Nat) : OpOut :=
  match h with
  | .inert => noopOut s
  | .active key =>
    if s.fatal then noopOut s
    else
      match lookupStep s.steps key with
      | none => noopOut s
      | some st =>
        if st.status = Status.running ∨ st.status = Status.pending then
          { state := s
            writes := [StoreWrite.pushLog st.refId (message ++ "\r\n"), StoreWrite.setLastUpdate now]
            events := [] }
        else
          { state := s, writes := []
            events := [JsEvent.errorEvent
              ("progress-logs debug handler was triggered after the job finished with message: " ++ message)] }

/-- `handler.warn(message)`: like `write` but latches `hasWarning` on the
step and pushes the message colorized. -/
def warn (s : JobState) (h : StepHandle) (message : String) (now : Nat) : OpOut :=
  match h with
  | .inert => noopOut s
  | .active key =>
    if s.fatal then noopOut s
    else
      match lookupStep s.steps key with
      | none => noopOut s
      | some st =>
        if st.status = Status.running ∨ st.status = Status.pending then
          { state := { s with steps := updateStepEntry s.steps key { st with hasWarning := true } }
            writes := [StoreWrite.pushLog st.refId ("\x1B[01;93m" ++ message ++ "\x1B[0m\r\n"),
                       StoreWrite.setLastUpdate now]
            events := [] }
        else
          { state := s, writes := []
            events := [JsEvent.errorEvent
              ("progress-logs warning handler was triggered after the job finished with message: " ++ message)] }

/-- `handler.info(message)`: like `debug`. -/
def info (s : JobState) (h : StepHandle) (message : String) (now : Nat) : OpOut :=
  match h with
  | .inert => noopOut s
  | .active key =>
    if s.fatal then noopOut s
    else
      match lookupStep s.steps key with
      | none => noopOut s
      | some st =>
        if st.status = Status.running ∨ st.status = Status.pending then
          { state := s
            writes := [StoreWrite.pushLog st.refId (message ++ "\r\n"), StoreWrite.setLastUpdate now]
            events := [] }
        else
          { state := s, writes := []
            events := [JsEvent.errorEvent
              ("progress-logs info handler was triggered after the job finished with message: " ++ message)] }

/-- `handler.finish(err, skip)`: guarded by `fatal`.  While pending/running it
sets `finishTimeStamp`, computes the status by the source's assignment
sequence (`err ? ERROR : SUCCESS`, then `skip → SKIPPED`, then
`!err && hasWarning → WARNING`), pushes the colorized error line when `err`,
persists status+finishTimeStamp, touches `lastUpdate`, and clears the
job-level `handler` variable.  On a terminal step it only emits an error
event.  A JS error argument is modelled by `Option String` (its
`toString()`); a falsy error is `none`. -/
def finish (s : JobState) (h : StepHandle) (err : Option String) (skip : Bool) (now : Nat) : OpOut :=
  match h with
  | .inert => noopOut s
  | .active key =>
    if s.fatal then noopOut s
    else
      match lookupStep s.steps key with
      | none => noopOut s
      | some st =>
        if st.status = Status.running ∨ st.status = Status.pending then
          let status1 : Status := if err.isSome then Status.error else Status.success
          let status2 : Status := if skip then Status.skipped else status1
          let errLog : List StoreWrite :=
            match err with
            | some e => [StoreWrite.pushLog st.refId ("\x1B[31m" ++ e ++ "\x1B[0m\r\n")]
            | none => []
          let status3 : Status :=
            if err.isNone && st.hasWarning then Status.warning else status2
          let st' : Step := { st with status := status3, finishTimeStamp := some now }
          { state := { s with steps := updateStepEntry s.steps key st', handler := none }
            writes := errLog ++
              [StoreWrite.updateStep st.refId status3 (some now), StoreWrite.setLastUpdate now]
            events := [] }
        else
          { state := s, writes := []
            events := [JsEvent.errorEvent
              (match err with
               | some e =>
                 "progress-logs finish handler was triggered after the job finished with err: " ++ e
               | none => "progress-logs finish handler was triggered after the job finished")] }

/-- `handler.resetCreationTimeStamp()`: guarded by `fatal`; while
pending/running overwrites the persisted `creationTimeStamp` child with "now"
and touches `lastUpdate` (the in-memory field is not updated); otherwise emits
an error event. -/
def resetCreationTimeStamp (s : JobState) (h : StepHandle) (now : Nat) : OpOut :=
  match h with
  | .inert => noopOut s
  | .active key =>
    if s.fatal then noopOut s
    else
      match lookupStep s.steps key with
      | none => noopOut s
      | some st =>
        if st.status = Status.running ∨ st.status = Status.pending then
          { state := s
            writes := [StoreWrite.setCreationTimeStamp st.refId now, StoreWrite.setLastUpdate now]
            events := [] }
        else
          { state := s, writes := []
            events := [JsEvent.errorEvent
              ("progress-logs resetCreationTimeStamp handler was triggered after the job finished")] }

/-- `handler.getStatus()`: pure read of the step's status.  (The null-object
handle does not define this method at all — see `StepHandle.hasMethod`.) -/
def getStatus (s : JobState) (h : StepHandle) : Option Status :=
  match h with
  | .inert => none
  | .active key => (lookupStep s.steps key).map Step.status

/-- `handler.getReference()`: `step.firebaseRef.toString()`, an opaque locator
rendered from the reference handle.  The null object's getter returns
`undefined` (`none`). -/
def getReference (s : JobState) (h : StepHandle) : Option String :=
  match h with
  | .inert => none
  | .active key => (lookupStep s.steps key).map (fun st => "steps/" ++ toString st.refId)

/-- `handler.getLogsReference()`: locator of the step's `logs` child. -/
def getLogsReference (s : JobState) (h : StepHandle) : Option String :=
  match h with
  | .inert => none
  | .active key =>
    (lookupStep s.steps key).map (fun st => "steps/" ++ toString st.refId ++ "/logs")

/-- `handler.getLastUpdateReference()`: locator of the job's `lastUpdate`. -/
def getLastUpdateReference (cfg : Config) (h : StepHandle) : Option String :=
  match h with
  | .inert => none
  | .active _ => some (cfg.baseFirebaseUrl ++ cfg.jobId ++ "/lastUpdate")

end Handler

namespace TaskLogger

/-- The TaskLogger-level `finish(err)`: guarded by `fatal`; delegates to the
current handler's `finish` when one is active, then latches `finished`. -/
def jobFinish (s : JobState) (err : Option String) (now : Nat) : OpOut :=
  if s.fatal then noopOut s
  else
    let out :=
      match s.handler with
      | some key => Handler.finish s (StepHandle.active key) err false now
      | none => noopOut s
    { out with state := { out.state with finished := true } }

/-- `fatalError(err)`: throws (synchronously, before any mutation) when the
error is falsy; is a no-op when already fatal; otherwise finishes the current
handler's step with the error when a handler is active, else creates a step
named "Something went wrong" and finishes that with the error; finally latches
`fatal`. -/
def fatalError (cfg : Config) (s : JobState) (err : Option String) (now : Nat) :
    Except String OpOut :=
  if err.isNone then
    Except.error ("fatalError was called without an error. not valid.")
  else if s.fatal then
    Except.ok (noopOut s)
  else
    let out : OpOut :=
      match s.handler with
      | some key => Handler.finish s (StepHandle.active key) err false now
      | none =>
        let created := create cfg s ("Something went wrong") ("") now
        let finished := Handler.finish created.1.state created.2 err false now
        { state := finished.state
          writes := created.1.writes ++ finished.writes
          events := created.1.events ++ finished.events }
    Except.ok { out with state := { out.state with fatal := true } }

end TaskLogger

/-- The result `fatalError` produces when a handler is active: that handler's
step finished with the error, then the fatal latch set (a definitional
restatement of the corresponding branch of `TaskLogger.fatalError`). -/
def fatalOutHandler (s : JobState) (k0 : String) (e : String) (now : Nat) : OpOut :=
  let fin := Handler.finish s (StepHandle.active k0) (some e) false now
  { state := { fin.state with fatal := true }
    writes := fin.writes
    events := fin.events }

/-- The result `fatalError` produces when no handler is active: a step named
"Something went wrong" created and finished with the error, then the fatal
latch set (a definitional restatement of the corresponding branch of
`TaskLogger.fatalError`). -/
def fatalOutNoHandler (cfg : Config) (s : JobState) (e : String) (now : Nat) : OpOut :=
  let created := TaskLogger.create cfg s ("Something went wrong") ("") now
  let fin := Handler.finish created.1.state created.2 (some e) false now
  { state := { fin.state with fatal := true }
    writes := created.1.writes ++ fin.writes
    events := created.1.events ++ fin.events }

/-- Unwraps `Except.ok`, falling back to a default state (used only to phrase
closed counterexamples; the theorems using it also establish the call did not
throw). -/
def exceptState (e : Except String OpOut) (d : JobState) : JobState :=
  match e with
  | .ok o => o.state
  | .error _ => d

/-! ## Concrete executions used by witnesses and counterexamples -/

/-- A concrete TaskLogger configuration. -/
def cfg0 : Config :=
  { jobId := "J1", baseFirebaseUrl := "fb/", firstStepCreationTime := none }

/-- Creation of step "A" on a fresh job. -/
def createA : OpOut × StepHandle :=
  TaskLogger.create cfg0 initState ("A") ("") 0

/-- State after creating step "A". -/
def sA : JobState := createA.1.state

/-- The live handle for step "A". -/
def hA : StepHandle := createA.2

/-- After a `warn` on step "A" (latches `hasWarning`). -/
def sAwarn : JobState := (Handler.warn sA hA ("disk space low") 1).state

/-- `finish(undefined, true)` on the warned step "A". -/
def c1FinishOut : OpOut := Handler.finish sAwarn hA none true 2

/-- State after `fatalError("boom")` on the job with live step "A". -/
def c2FatalState : JobState :=
  exceptState (TaskLogger.fatalError cfg0 sA (some ("boom")) 1) initState

/-- `create("B")` attempted after the job went fatal. -/
def c2CreateOut : OpOut × StepHandle :=
  TaskLogger.create cfg0 c2FatalState ("B") ("") 2

/-- Step "A" finished successfully at time 5. -/
def c3Finished : JobState := (Handler.finish sA hA none false 5).state

/-- Step "A" re-created after having been finished. -/
def c3Recreate : OpOut × StepHandle :=
  TaskLogger.create cfg0 c3Finished ("A") ("") 7

/-- Job-level `finish()` after step "A" (finishes "A" with success and latches
`finished`). -/
def c5FinishedJob : JobState := (TaskLogger.jobFinish sA none 1).state

/-- `fatalError("boom")` on the finished (but not fatal) job. -/
def c5Out : JobState :=
  exceptState (TaskLogger.fatalError cfg0 c5FinishedJob (some ("boom")) 2) initState

/-- A `write` on the old handle of (now terminal) step "A" after the job went
fatal. -/
def c6WriteOut : OpOut := Handler.write c2FatalState hA ("m") 9

/-- The step entity stored under "A" right after creation. -/
def stA : Step :=
  { name := "A", id := "", creationTimeStamp := 0, status := Status.pending,
    finishTimeStamp := none, hasWarning := false, logs := [], refId := 0 }

/-- The step entity stored under "A" in `c3Finished` (finished with success
at time 5). -/
def stA5 : Step :=
  { name := "A", id := "", creationTimeStamp := 0, status := Status.success,
    finishTimeStamp := some 5, hasWarning := false, logs := [], refId := 0 }

/-! ## Lemmas about the steps map -/

theorem lookupStep_update_self (steps : List (String × Step)) (k : String) (st st' : Step)
    (h : lookupStep steps k = some st) :
    lookupStep (updateStepEntry steps k st') k = some st' := by
  induction steps with
  | nil => simp [lookupStep] at h
  | cons p rest ih =>
    obtain ⟨k1, v1⟩ := p
    by_cases hk : k1 = k
    · subst hk
      simp [lookupStep, updateStepEntry, List.find?_cons]
    · simp [lookupStep, updateStepEntry, List.find?_cons, hk] at h ih ⊢
      obtain ⟨a, ha⟩ := h
      exact ih a ha

theorem lookupStep_update_length (steps : List (String × Step)) (k : String) (st : Step) :
    (updateStepEntry steps k st).length = steps.length := by
  simp [updateStepEntry]

theorem countKey_update (steps : List (String × Step)) (k : String) (st : Step) :
    countKey (updateStepEntry steps k st) k = countKey steps k := by
  induction steps with
  | nil => rfl
  | cons p rest ih =>
    obtain ⟨k1, v1⟩ := p
    by_cases hk : k1 = k
    · subst hk
      simp [countKey, updateStepEntry, List.filter_cons] at ih ⊢
      omega
    · simp [countKey, updateStepEntry, List.filter_cons, hk] at ih ⊢
      omega

theorem lookupStep_append_new (steps : List (String × Step)) (k : String) (st : Step)
    (h : lookupStep steps k = none) :
    lookupStep (steps ++ [(k, st)]) k = some st := by
  induction steps with
  | nil => simp [lookupStep]
  | cons p rest ih =>
    obtain ⟨k1, v1⟩ := p
    by_cases hk : k1 = k
    · subst hk
      simp [lookupStep, List.find?_cons] at h
    · simp [lookupStep, List.cons_append, List.find?_cons, hk] at h ih ⊢
      exact ih h

theorem countKey_append_self (steps : List (String × Step)) (k : String) (st : Step) :
    countKey (steps ++ [(k, st)]) k = countKey steps k + 1 := by
  simp [countKey, List.filter_append]

theorem countKey_eq_zero_of_none (steps : List (String × Step)) (k : String)
    (h : lookupStep steps k = none) :
    countKey steps k = 0 := by
  have hf : List.find? (fun p => p.1 == k) steps = none := by
    unfold lookupStep at h
    cases hfind : List.find? (fun p => p.1 == k) steps with
    | none => rfl
    | some a =>
      rw [hfind] at h
      simp at h
  have hnil : List.filter (fun p => p.1 == k) steps = [] := by
    rw [List.filter_eq_nil_iff]
    exact List.find?_eq_none.mp hf
  simp [countKey, hnil]

theorem stepLogsInStore_append (t1 t2 : List StoreWrite) (ref : Nat) :
    stepLogsInStore (t1 ++ t2) ref = stepLogsInStore t1 ref ++ stepLogsInStore t2 ref := by
  simp [stepLogsInStore]

/-! ## Claim theorems -/

/-- C8: the flatten strategy's `push` claims a write exactly when the path
stack has exactly one entry, the value is a string, and that entry is in the
strategy's recognized key set; on claim it `rpush`es the value onto the list
under `key ++ ":" ++ fieldName`; otherwise it declines without issuing any
command or touching the stack, so a scalar string pushed through the chain
with an empty stack falls through to the catch-all and is written with a
plain `set key value`. -/
theorem flatten_push_spec (ks : List String) (obj : JsVal) (key : String)
    (stack : List String) :
    ((RedisFlattenStrategy.push { keys := ks } obj key stack).handled = true ↔
      stack.length = 1 ∧ obj.typeofIsString = true ∧
        ks.contains (stack.headD ("")) = true) ∧
    ((RedisFlattenStrategy.push { keys := ks } obj key stack).handled = true →
      (RedisFlattenStrategy.push { keys := ks } obj key stack).cmds =
        [RedisCmd.rpush (key ++ ":" ++ stack.headD ("")) obj]) ∧
    ((RedisFlattenStrategy.push { keys := ks } obj key stack).handled = false →
      (RedisFlattenStrategy.push { keys := ks } obj key stack).cmds = [] ∧
      (RedisFlattenStrategy.push { keys := ks } obj key stack).stack = stack) ∧
    (∀ str : String,
      ChainRedisStrategy.push
        [RedisFlattenStrategy.push { keys := ks }, RedisSetStratry.push]
        (JsVal.vStr str) key [] = ([RedisCmd.set key (JsVal.vStr str)], [])) := by
  refine ⟨?_, ?_, ?_, ?_⟩
  · rcases stack with _ | ⟨f, _ | ⟨g, rest2⟩⟩
    · cases obj <;> simp [RedisFlattenStrategy.push, JsVal.typeofIsString]
    · cases obj <;> by_cases hf : f ∈ ks <;>
        simp [RedisFlattenStrategy.push, JsVal.typeofIsString, hf]
    · cases obj <;> simp [RedisFlattenStrategy.push, JsVal.typeofIsString]
  · rcases stack with _ | ⟨f, _ | ⟨g, rest2⟩⟩
    · cases obj <;> simp [RedisFlattenStrategy.push, JsVal.typeofIsString]
    · cases obj <;> by_cases hf : f ∈ ks <;>
        simp [RedisFlattenStrategy.push, JsVal.typeofIsString, hf]
    · cases obj <;> simp [RedisFlattenStrategy.push, JsVal.typeofIsString]
  · rcases stack with _ | ⟨f, _ | ⟨g, rest2⟩⟩
    · cases obj <;> simp [RedisFlattenStrategy.push, JsVal.typeofIsString]
    · cases obj <;> by_cases hf : f ∈ ks <;>
        simp [RedisFlattenStrategy.push, JsVal.typeofIsString, hf]
    · cases obj <;> simp [RedisFlattenStrategy.push, JsVal.typeofIsString]
  · intro str
    simp [ChainRedisStrategy.push, RedisFlattenStrategy.push, RedisSetStratry.push,
      JsVal.typeofIsString, JsVal.typeofIsObject]

/-- C8 witness: `push "hello"` with stack `["log"]` and recognized key "log"
appends to the list at `"k:log"`; the same value with an empty stack goes
through the chain to `set k "hello"`. -/
theorem flatten_push_spec_witness :
    (RedisFlattenStrategy.push { keys := ["log"] } (JsVal.vStr ("hello")) ("k")
        (["log"])).cmds =
      [RedisCmd.rpush ("k" ++ ":" ++ "log") (JsVal.vStr ("hello"))] ∧
    ChainRedisStrategy.push
        [RedisFlattenStrategy.push { keys := ["log"] }, RedisSetStratry.push]
        (JsVal.vStr ("hello")) ("k") [] =
      ([RedisCmd.set ("k") (JsVal.vStr ("hello"))], []) :=
  ⟨(flatten_push_spec (["log"]) (JsVal.vStr ("hello")) ("k") (["log"])).2.1 rfl,
   (flatten_push_spec (["log"]) (JsVal.vStr ("hello")) ("k") (["log"])).2.2.2 ("hello")⟩

/-- C9: the catch-all strategy's `push` always signals handled; a non-object
value with a non-empty path stack is first wrapped as `{topOfStack: value}`
and then written as a hash via `hmset` with the fields flattened into an
alternating key/value array; an object value is written the same way; a
remaining scalar (empty stack) is written via `set key value`.  In particular
pushing `{a:1, b:2}` with any path stack yields `hmset key [a,1,b,2]`. -/
theorem set_push_spec (obj : JsVal) (key : String) (stack : List String) :
    ((RedisSetStratry.push obj key stack).handled = true) ∧
    (∀ fields, obj = JsVal.vObj fields →
      (RedisSetStratry.push obj key stack).cmds =
        [RedisCmd.hmset key (flattenFields fields)]) ∧
    (obj.typeofIsObject = false → stack ≠ [] →
      (RedisSetStratry.push obj key stack).cmds =
        [RedisCmd.hmset key [JsVal.vStr (stack.getLastD ("")), obj]]) ∧
    (obj.typeofIsObject = false → stack = [] →
      (RedisSetStratry.push obj key stack).cmds = [RedisCmd.set key obj]) ∧
    (∀ stack2 : List String,
      (RedisSetStratry.push
          (JsVal.vObj [("a", JsVal.vNum 1), ("b", JsVal.vNum 2)]) key stack2).cmds =
        [RedisCmd.hmset key
          [JsVal.vStr ("a"), JsVal.vNum 1, JsVal.vStr ("b"), JsVal.vNum 2]]) := by
  refine ⟨?_, ?_, ?_, ?_, ?_⟩
  · cases obj <;> rcases stack with _ | ⟨f, rest⟩ <;>
      simp [RedisSetStratry.push, JsVal.typeofIsObject]
  · intro fields hobj
    subst hobj
    rcases stack with _ | ⟨f, rest⟩ <;>
      simp [RedisSetStratry.push, JsVal.typeofIsObject]
  · intro hobj hne
    cases obj <;> rcases stack with _ | ⟨f, rest⟩ <;>
      simp [JsVal.typeofIsObject] at hobj hne ⊢ <;>
      simp [RedisSetStratry.push, JsVal.typeofIsObject, flattenFields]
  · intro hobj hnil
    subst hnil
    cases obj <;> simp [JsVal.typeofIsObject] at hobj ⊢ <;>
      simp [RedisSetStratry.push, JsVal.typeofIsObject]
  · intro stack2
    rcases stack2 with _ | ⟨f, rest⟩ <;>
      simp [RedisSetStratry.push, JsVal.typeofIsObject, flattenFields]

/-- C9 witness: pushing the scalar "hello" with stack `["log"]` wraps it and
writes `hmset k [log, hello]`; pushing `{a:1, b:2}` with stack `["x"]` writes
the flattened hash. -/
theorem set_push_spec_witness :
    (RedisSetStratry.push (JsVal.vStr ("hello")) ("k") (["log"])).cmds =
      [RedisCmd.hmset ("k") [JsVal.vStr ("log"), JsVal.vStr ("hello")]] ∧
    (RedisSetStratry.push
        (JsVal.vObj [("a", JsVal.vNum 1), ("b", JsVal.vNum 2)]) ("k") (["x"])).cmds =
      [RedisCmd.hmset ("k")
        [JsVal.vStr ("a"), JsVal.vNum 1, JsVal.vStr ("b"), JsVal.vNum 2]] :=
  ⟨(set_push_spec (JsVal.vStr ("hello")) ("k") (["log"])).2.2.1 rfl (by simp),
   (set_push_spec (JsVal.vObj [("a", JsVal.vNum 1), ("b", JsVal.vNum 2)]) ("k")
      (["x"])).2.2.2.2 (["x"])⟩

/-- C10: both strategies mutate the caller's path stack in place: the flatten
strategy pops the last entry exactly when it claims the write, the catch-all
pops the last entry exactly when it wraps a non-object value, and a chained
push that claims hands the shortened stack back to the caller. -/
theorem push_stack_mutation (ks : List String) (obj : JsVal) (key : String)
    (stack : List String) :
    ((RedisFlattenStrategy.push { keys := ks } obj key stack).handled = true →
      (RedisFlattenStrategy.push { keys := ks } obj key stack).stack = stack.dropLast) ∧
    ((RedisFlattenStrategy.push { keys := ks } obj key stack).handled = false →
      (RedisFlattenStrategy.push { keys := ks } obj key stack).stack = stack) ∧
    (obj.typeofIsObject = false → stack ≠ [] →
      (RedisSetStratry.push obj key stack).stack = stack.dropLast) ∧
    (obj.typeofIsObject = true ∨ stack = [] →
      (RedisSetStratry.push obj key stack).stack = stack) ∧
    ((RedisFlattenStrategy.push { keys := ks } obj key stack).handled = true →
      (ChainRedisStrategy.push
          [RedisFlattenStrategy.push { keys := ks }, RedisSetStratry.push]
          obj key stack).2 = stack.dropLast) := by
  refine ⟨?_, ?_, ?_, ?_, ?_⟩
  · intro h
    unfold RedisFlattenStrategy.push at h ⊢
    by_cases hc : (stack.length == 1 && obj.typeofIsString &&
        ks.contains (stack.headD (""))) = true
    · rw [if_pos hc]
    · rw [if_neg hc] at h
      simp at h
  · intro h
    unfold RedisFlattenStrategy.push at h ⊢
    by_cases hc : (stack.length == 1 && obj.typeofIsString &&
        ks.contains (stack.headD (""))) = true
    · rw [if_pos hc] at h
      simp at h
    · rw [if_neg hc]
  · intro hobj hne
    rcases stack with _ | ⟨f, rest⟩
    · exact absurd rfl hne
    · cases obj <;> simp [JsVal.typeofIsObject] at hobj <;>
        simp [RedisSetStratry.push, JsVal.typeofIsObject]
  · intro h
    rcases h with hobj | hnil
    · cases obj <;> simp [JsVal.typeofIsObject] at hobj <;>
        simp [RedisSetStratry.push, JsVal.typeofIsObject]
    · subst hnil
      cases obj <;> simp [RedisSetStratry.push, JsVal.typeofIsObject]
  · intro h
    unfold ChainRedisStrategy.push
    unfold RedisFlattenStrategy.push at h ⊢
    by_cases hc : (stack.length == 1 && obj.typeofIsString &&
        ks.contains (stack.headD (""))) = true
    · rw [if_pos hc]
      simp
    · rw [if_neg hc] at h
      simp at h

/-- C10 witness: a claimed flatten push pops the singleton stack to `[]`
(also through the chain), and a wrapping catch-all push pops `["a","b"]`
to `["a"]`. -/
theorem push_stack_mutation_witness :
    (RedisFlattenStrategy.push { keys := ["log"] } (JsVal.vStr ("hello")) ("k")
        (["log"])).stack = [] ∧
    (RedisSetStratry.push (JsVal.vNum 3) ("k") (["a", "b"])).stack = ["a"] ∧
    (ChainRedisStrategy.push
        [RedisFlattenStrategy.push { keys := ["log"] }, RedisSetStratry.push]
        (JsVal.vStr ("hello")) ("k") (["log"])).2 = [] :=
  ⟨(push_stack_mutation (["log"]) (JsVal.vStr ("hello")) ("k") (["log"])).1 rfl,
   (push_stack_mutation (["log"]) (JsVal.vNum 3) ("k") (["a", "b"])).2.2.1 rfl (by simp),
   (push_stack_mutation (["log"]) (JsVal.vStr ("hello")) ("k") (["log"])).2.2.2.2 rfl⟩

/-- C4: `fatalError` called with a falsy error raises a synchronous error
(thrown before any mutation, so the fatal latch and all other state are left
exactly as if the call had never happened). -/
theorem fatalError_requires_error (cfg : Config) (s : JobState) (now : Nat) :
    TaskLogger.fatalError cfg s none now =
      Except.error ("fatalError was called without an error. not valid.") := by
  rfl

/-- C7: once the job's `fatal` flag is true, every handler operation on every
previously obtained handle (start, write, debug, info, warn, finish,
resetCreationTimeStamp) is a no-op issuing no store write, no event and no
status transition; and no operation (create, job finish, fatalError included)
ever resets `fatal` back to false. -/
theorem fatal_silences_everything (cfg : Config) (s : JobState) (h : StepHandle)
    (name id msg e : String) (err : Option String) (skip : Bool) (now : Nat)
    (hf : s.fatal = true) :
    Handler.start s h = noopOut s ∧
    Handler.write s h msg now = noopOut s ∧
    Handler.debug s h msg now = noopOut s ∧
    Handler.info s h msg now = noopOut s ∧
    Handler.warn s h msg now = noopOut s ∧
    Handler.finish s h err skip now = noopOut s ∧
    Handler.resetCreationTimeStamp s h now = noopOut s ∧
    (TaskLogger.create cfg s name id now).1 = noopOut s ∧
    (TaskLogger.create cfg s name id now).1.state.fatal = true ∧
    (TaskLogger.jobFinish s err now).state.fatal = true ∧
    TaskLogger.fatalError cfg s (some e) now = Except.ok (noopOut s) := by
  cases h <;>
    simp [Handler.start, Handler.write, Handler.debug, Handler.info, Handler.warn,
      Handler.finish, Handler.resetCreationTimeStamp, TaskLogger.create,
      TaskLogger.jobFinish, TaskLogger.fatalError, noopOut, hf]

/-- C7 witness: in the concrete post-`fatalError` state, a `write` on the old
handle is a silent no-op and a job-level finish keeps `fatal` true. -/
theorem fatal_silences_everything_witness :
    Handler.write c2FatalState hA ("m") 3 = noopOut c2FatalState ∧
    (TaskLogger.jobFinish c2FatalState none 3).state.fatal = true :=
  ⟨(fatal_silences_everything cfg0 c2FatalState hA ("B") ("") ("m") ("e") none false 3
      (by decide)).2.1,
   (fatal_silences_everything cfg0 c2FatalState hA ("B") ("") ("m") ("e") none false 3
      (by decide)).2.2.2.2.2.2.2.2.2.1⟩

/-- C2 counterexample: after `fatalError` the job is fatal and `create`
returns the null-object handle — but that object does not define `start`,
`resetCreationTimeStamp` or `getStatus` at all, so invoking any of them
throws a TypeError instead of being the safe no-op the claim promises for
every StepHandle operation. -/
theorem nullHandle_missing_methods_counterexample :
    c2FatalState.fatal = true ∧
    (TaskLogger.create cfg0 c2FatalState ("B") ("") 2).2 = StepHandle.inert ∧
    StepHandle.hasMethod StepHandle.inert Method.start = false ∧
    StepHandle.hasMethod StepHandle.inert Method.resetCreationTimeStamp = false ∧
    StepHandle.hasMethod StepHandle.inert Method.getStatus = false := by
  decide

/-- C2 amended: when the job is fatal or finished, `create` returns the
null-object handle with no store write and no event; every method that handle
does define (write, debug, warn, info, finish and the three reference
getters) is a safe no-op; `start`, `resetCreationTimeStamp` and `getStatus`
are absent from it, so invoking them throws a TypeError. -/
theorem nullHandle_spec (cfg : Config) (s s2 : JobState) (name id msg : String)
    (err : Option String) (skip : Bool) (now now2 : Nat)
    (h : s.fatal = true ∨ s.finished = true) :
    TaskLogger.create cfg s name id now = (noopOut s, StepHandle.inert) ∧
    Handler.write s2 StepHandle.inert msg now2 = noopOut s2 ∧
    Handler.debug s2 StepHandle.inert msg now2 = noopOut s2 ∧
    Handler.warn s2 StepHandle.inert msg now2 = noopOut s2 ∧
    Handler.info s2 StepHandle.inert msg now2 = noopOut s2 ∧
    Handler.finish s2 StepHandle.inert err skip now2 = noopOut s2 ∧
    Handler.getReference s2 StepHandle.inert = none ∧
    Handler.getLogsReference s2 StepHandle.inert = none ∧
    Handler.getLastUpdateReference cfg StepHandle.inert = none ∧
    StepHandle.hasMethod StepHandle.inert Method.write = true ∧
    StepHandle.hasMethod StepHandle.inert Method.finish = true ∧
    StepHandle.hasMethod StepHandle.inert Method.start = false ∧
    StepHandle.hasMethod StepHandle.inert Method.resetCreationTimeStamp = false ∧
    StepHandle.hasMethod StepHandle.inert Method.getStatus = false := by
  rcases h with h | h <;>
    simp [TaskLogger.create, Handler.write, Handler.debug, Handler.warn, Handler.info,
      Handler.finish, Handler.getReference, Handler.getLogsReference,
      Handler.getLastUpdateReference, StepHandle.hasMethod, nullHandleMethods,
      noopOut, h]

/-- C2 witness: on the concrete finished (not fatal) job, `create` returns
the null-object handle and performs no store write. -/
theorem nullHandle_spec_witness :
    TaskLogger.create cfg0 c5FinishedJob ("B") ("") 3 =
      (noopOut c5FinishedJob, StepHandle.inert) :=
  (nullHandle_spec cfg0 c5FinishedJob initState ("B") ("") ("m") none false 3 4
    (Or.inr (by decide))).1

/-- C1 counterexample: a pending step with `hasWarning` latched, finished
with `finish(undefined, true)` on a non-fatal job, ends with status
`warning`, not the `skipped` the claim requires ("finish(undefined, true)
yields skipped regardless of hasWarning"). -/
theorem finish_resolution_counterexample :
    sAwarn.fatal = false ∧
    (lookupStep sAwarn.steps ("A")).map Step.status = some Status.pending ∧
    (lookupStep sAwarn.steps ("A")).map Step.hasWarning = some true ∧
    (lookupStep c1FinishOut.state.steps ("A")).map Step.status = some Status.warning ∧
    Status.warning ≠ Status.skipped := by
  decide

/-- C1 amended: for a pending/running step on a non-fatal job, `finish(err,
skip)` stamps `finishTimeStamp` and resolves the status by the code's order:
if `err` is falsy and `hasWarning` is latched → `warning`; else if `skip` is
truthy → `skipped` (even when `err` is also truthy); else if `err` is truthy
→ `error`; else `success`. -/
theorem finish_status_resolution (s : JobState) (k : String) (st : Step)
    (err : Option String) (skip : Bool) (now : Nat)
    (hf : s.fatal = false) (hl : lookupStep s.steps k = some st)
    (hs : st.status = Status.running ∨ st.status = Status.pending) :
    lookupStep (Handler.finish s (StepHandle.active k) err skip now).state.steps k =
      some { st with
        status :=
          if err.isNone && st.hasWarning then Status.warning
          else if skip then Status.skipped
          else if err.isSome then Status.error
          else Status.success,
        finishTimeStamp := some now } := by
  unfold Handler.finish
  rw [hf]
  simp only [Bool.false_eq_true, reduceIte, hl]
  rw [if_pos hs]
  exact lookupStep_update_self s.steps k st _ hl

/-- C1 witness: finishing the freshly created pending step "A" with an error
yields status `error` and a stamped finish time. -/
theorem finish_status_resolution_witness :
    lookupStep (Handler.finish sA hA (some ("boom")) false 4).state.steps ("A") =
      some { stA with status := Status.error, finishTimeStamp := some 4 } :=
  finish_status_resolution sA ("A") stA (some ("boom")) false 4 (by decide) (by decide)
    (Or.inr (by decide))

/-- C3 counterexample: step "A" is created, finished at time 5, then created
again.  The re-create resets the status to pending and sends a cleared
`finishTimeStamp` to the store, but the in-memory step object still carries
`finishTimeStamp = some 5` — the claim's "clears ... both the in-memory field
and the persisted record" does not hold for the in-memory field. -/
theorem recreate_finishTimeStamp_counterexample :
    (lookupStep c3Recreate.1.state.steps ("A")).map Step.status =
      some Status.pending ∧
    (lookupStep c3Recreate.1.state.steps ("A")).map Step.finishTimeStamp =
      some (some 5) ∧
    c3Recreate.1.writes = [StoreWrite.updateStep 0 Status.pending none] := by
  decide

/-- C3 amended: repeated `create` on an existing key keeps exactly one step
entity: it resets the status to pending and clears `finishTimeStamp` in the
persisted record only (the single update write carries a cleared value),
while the in-memory entity keeps every other field — identity, reference
handle, creation time, logs and its old `finishTimeStamp` — and no log line
in the store is touched; a `create` on a fresh key yields exactly one entity
under that key. -/
theorem create_recreate_spec (cfg : Config) (s : JobState) (name id : String)
    (now : Nat) (hf : s.fatal = false) (hfin : s.finished = false) :
    (∀ st, lookupStep s.steps (stepKey name id) = some st →
      (TaskLogger.create cfg s name id now).1.writes =
        [StoreWrite.updateStep st.refId Status.pending none] ∧
      lookupStep (TaskLogger.create cfg s name id now).1.state.steps
          (stepKey name id) = some { st with status := Status.pending } ∧
      (TaskLogger.create cfg s name id now).1.state.steps.length =
        s.steps.length ∧
      countKey (TaskLogger.create cfg s name id now).1.state.steps
          (stepKey name id) = countKey s.steps (stepKey name id) ∧
      (∀ trace : List StoreWrite,
        stepLogsInStore (trace ++ (TaskLogger.create cfg s name id now).1.writes)
            st.refId = stepLogsInStore trace st.refId) ∧
      (TaskLogger.create cfg s name id now).2 =
        StepHandle.active (stepKey name id)) ∧
    (lookupStep s.steps (stepKey name id) = none →
      countKey (TaskLogger.create cfg s name id now).1.state.steps
        (stepKey name id) = 1) := by
  constructor
  · intro st hst
    unfold TaskLogger.create
    rw [hf, hfin]
    simp only [Bool.or_self, Bool.false_eq_true, reduceIte, hst]
    refine ⟨trivial, ?_, ?_, ?_, ?_, trivial⟩
    · exact lookupStep_update_self s.steps (stepKey name id) st _ hst
    · exact lookupStep_update_length s.steps (stepKey name id) _
    · exact countKey_update s.steps (stepKey name id) _
    · intro trace
      rw [stepLogsInStore_append]
      simp [stepLogsInStore]
  · intro hnone
    unfold TaskLogger.create
    rw [hf, hfin]
    simp only [Bool.or_self, Bool.false_eq_true, reduceIte, hnone]
    rw [countKey_append_self, countKey_eq_zero_of_none s.steps _ hnone]

/-- C3 witness: re-creating the finished step "A" issues exactly the
status/finishTimeStamp-clearing update and keeps the single entity. -/
theorem create_recreate_spec_witness :
    (TaskLogger.create cfg0 c3Finished ("A") ("") 7).1.writes =
      [StoreWrite.updateStep 0 Status.pending none] ∧
    countKey (TaskLogger.create cfg0 c3Finished ("A") ("") 7).1.state.steps
      (stepKey ("A") ("")) = countKey c3Finished.steps (stepKey ("A") ("")) :=
  ⟨((create_recreate_spec cfg0 c3Finished ("A") ("") 7 (by decide) (by decide)).1
      stA5 (by decide)).1,
   ((create_recreate_spec cfg0 c3Finished ("A") ("") 7 (by decide) (by decide)).1
      stA5 (by decide)).2.2.2.1⟩

/-- C6 counterexample: in the concrete run, step "A" is terminal (status
`error`) and the job is fatal; a subsequent `write` on its handle emits NO
"error" event (it is a silent no-op), whereas the claim requires every such
call to emit one. -/
theorem terminal_write_counterexample :
    (lookupStep c2FatalState.steps ("A")).map Step.status = some Status.error ∧
    Status.error.isTerminal = true ∧
    c6WriteOut.events = [] ∧
    c6WriteOut.writes = [] ∧
    c6WriteOut.state = c2FatalState := by
  decide

/-- C6 amended: provided the job is not fatal, every call to write, debug,
info, warn or finish on a terminal step emits exactly one "error" event,
mutates no state and issues no store write; and a valid finish (on a
pending/running step) always leaves a terminal status, so finish can validly
complete at most once between re-creations. -/
theorem terminal_step_ops_spec (s : JobState) (k : String) (st : Step)
    (msg : String) (err : Option String) (skip : Bool) (now : Nat)
    (hf : s.fatal = false) (hl : lookupStep s.steps k = some st)
    (ht : st.status.isTerminal = true) :
    (∃ m, Handler.write s (StepHandle.active k) msg now =
      { state := s, writes := [], events := [JsEvent.errorEvent m] }) ∧
    (∃ m, Handler.debug s (StepHandle.active k) msg now =
      { state := s, writes := [], events := [JsEvent.errorEvent m] }) ∧
    (∃ m, Handler.info s (StepHandle.active k) msg now =
      { state := s, writes := [], events := [JsEvent.errorEvent m] }) ∧
    (∃ m, Handler.warn s (StepHandle.active k) msg now =
      { state := s, writes := [], events := [JsEvent.errorEvent m] }) ∧
    (∃ m, Handler.finish s (StepHandle.active k) err skip now =
      { state := s, writes := [], events := [JsEvent.errorEvent m] }) ∧
    (∀ s2 st2 now2, s2.fatal = false → lookupStep s2.steps k = some st2 →
      (st2.status = Status.running ∨ st2.status = Status.pending) →
      ∃ st3,
        lookupStep (Handler.finish s2 (StepHandle.active k) err skip now2).state.steps k =
          some st3 ∧ st3.status.isTerminal = true) := by
  have hns : ¬(st.status = Status.running ∨ st.status = Status.pending) := by
    cases hcase : st.status <;> simp [hcase, Status.isTerminal] at ht ⊢
  refine ⟨?_, ?_, ?_, ?_, ?_, ?_⟩
  · unfold Handler.write
    rw [hf]
    simp only [Bool.false_eq_true, reduceIte, hl]
    rw [if_neg hns]
    exact ⟨_, rfl⟩
  · unfold Handler.debug
    rw [hf]
    simp only [Bool.false_eq_true, reduceIte, hl]
    rw [if_neg hns]
    exact ⟨_, rfl⟩
  · unfold Handler.info
    rw [hf]
    simp only [Bool.false_eq_true, reduceIte, hl]
    rw [if_neg hns]
    exact ⟨_, rfl⟩
  · unfold Handler.warn
    rw [hf]
    simp only [Bool.false_eq_true, reduceIte, hl]
    rw [if_neg hns]
    exact ⟨_, rfl⟩
  · unfold Handler.finish
    rw [hf]
    simp only [Bool.false_eq_true, reduceIte, hl]
    rw [if_neg hns]
    cases err <;> exact ⟨_, rfl⟩
  · intro s2 st2 now2 hf2 hl2 hs2
    refine ⟨_, finish_status_resolution s2 k st2 err skip now2 hf2 hl2 hs2, ?_⟩
    cases herr : err <;> by_cases hw : st2.hasWarning = true <;>
      by_cases h2 : skip = true <;>
      simp [herr, hw, h2, Status.isTerminal]

/-- C6 witness: on the finished-but-not-fatal job, writing to the terminal
step "A" emits exactly one "error" event with no state change. -/
theorem terminal_step_ops_spec_witness :
    ∃ m, Handler.write c3Finished (StepHandle.active ("A")) ("m") 9 =
      { state := c3Finished, writes := [], events := [JsEvent.errorEvent m] } :=
  (terminal_step_ops_spec c3Finished ("A") stA5 ("m") none false 9 (by decide)
    (by decide) (by decide)).1

/-- Finishing a pending/running step with an error always leaves it with
status `error` (helper shared by the fatalError theorems). -/
theorem finish_pending_error_status (s1 : JobState) (k : String) (st1 : Step)
    (e : String) (now2 : Nat) (hf1 : s1.fatal = false)
    (hl1 : lookupStep s1.steps k = some st1)
    (hs1 : st1.status = Status.running ∨ st1.status = Status.pending) :
    (lookupStep (Handler.finish s1 (StepHandle.active k) (some e) false now2).state.steps
        k).map Step.status = some Status.error := by
  rw [finish_status_resolution s1 k st1 (some e) false now2 hf1 hl1 hs1]
  rfl

/-- `create` followed by finishing the returned handle with an error leaves
the step under that key with status `error`, whether the key was fresh or
re-created (helper for the fatalError theorems). -/
theorem create_then_finish_error (cfg : Config) (s : JobState) (name id e : String)
    (now now2 : Nat) (hf : s.fatal = false) (hfin : s.finished = false) :
    (lookupStep
        (Handler.finish (TaskLogger.create cfg s name id now).1.state
          (TaskLogger.create cfg s name id now).2 (some e) false now2).state.steps
        (stepKey name id)).map Step.status = some Status.error := by
  unfold TaskLogger.create
  rw [hf, hfin]
  simp only [Bool.or_self, Bool.false_eq_true, reduceIte]
  cases hlk : lookupStep s.steps (stepKey name id) with
  | none =>
    simp only [hlk]
    exact finish_pending_error_status _ _ _ e now2 rfl
      (lookupStep_append_new _ _ _ hlk) (Or.inr rfl)
  | some st0 =>
    simp only [hlk]
    exact finish_pending_error_status _ _ _ e now2 rfl
      (lookupStep_update_self _ _ _ _ hlk) (Or.inr rfl)

/-- C5 counterexample: on a job that is finished but not fatal (step "A"
completed with success), `fatalError("boom")` sets the fatal latch but
records NO step with status `error` — the synthesized "Something went wrong"
step never comes to exist because `create` returns the null-object handle —
contradicting the claim that some step terminates with error status. -/
theorem fatalError_finished_counterexample :
    c5FinishedJob.fatal = false ∧
    c5Out.fatal = true ∧
    c5Out.steps.all (fun p => p.2.status != Status.error) = true ∧
    lookupStep c5Out.steps (stepKey ("Something went wrong") ("")) = none := by
  decide

/-- C5 amended: `fatalError(err)` with a truthy error on a non-fatal job
always returns normally and sets the fatal latch; when a handler is active on
a pending/running step, that step is finished with status `error`; when no
handler is active and the job is not finished, a step keyed "Something went
wrong" ends with status `error`; but when the job is already finished, the
call is state-silent apart from the fatal latch (no error step is recorded);
and on an already-fatal job the call is a complete no-op. -/
theorem fatalError_spec (cfg : Config) (s : JobState) (e : String) (now : Nat)
    (hf : s.fatal = false) :
    ∃ out, TaskLogger.fatalError cfg s (some e) now = Except.ok out ∧
      out.state.fatal = true ∧
      (∀ k st, s.handler = some k → lookupStep s.steps k = some st →
        (st.status = Status.running ∨ st.status = Status.pending) →
        (lookupStep out.state.steps k).map Step.status = some Status.error) ∧
      (s.handler = none → s.finished = false →
        (lookupStep out.state.steps
          (stepKey ("Something went wrong") (""))).map Step.status =
            some Status.error) ∧
      (s.handler = none → s.finished = true →
        out.state = { s with fatal := true } ∧ out.writes = [] ∧
          out.events = []) ∧
      (∀ s2 : JobState, s2.fatal = true →
        TaskLogger.fatalError cfg s2 (some e) now = Except.ok (noopOut s2)) := by
  cases hh : s.handler with
  | some k0 =>
    refine ⟨fatalOutHandler s k0 e now, ?_, rfl, ?_, ?_, ?_, ?_⟩
    · unfold TaskLogger.fatalError
      rw [hf, hh]
      rfl
    · intro k st hk hl hs
      injection hk with hk
      subst hk
      exact finish_pending_error_status s k0 st e now hf hl hs
    · intro h1 _
      simp at h1
    · intro h1 _
      simp at h1
    · intro s2 hf2
      unfold TaskLogger.fatalError
      rw [hf2]
      rfl
  | none =>
    refine ⟨fatalOutNoHandler cfg s e now, ?_, rfl, ?_, ?_, ?_, ?_⟩
    · unfold TaskLogger.fatalError
      rw [hf, hh]
      rfl
    · intro k st hk _ _
      simp at hk
    · intro _ h2
      exact create_then_finish_error cfg s ("Something went wrong") ("") e now now hf h2
    · intro _ h2
      have hc : TaskLogger.create cfg s ("Something went wrong") ("") now =
          (noopOut s, StepHandle.inert) := by
        unfold TaskLogger.create
        rw [hf, h2]
        rfl
      unfold fatalOutNoHandler
      rw [hc]
      simp [Handler.finish, noopOut, hh]
    · intro s2 hf2
      unfold TaskLogger.fatalError
      rw [hf2]
      rfl

/-- C5 witness: on the job with live pending step "A", `fatalError("boom")`
returns normally, latches `fatal`, and leaves step "A" with status `error`. -/
theorem fatalError_spec_witness :
    ∃ out, TaskLogger.fatalError cfg0 sA (some ("boom")) 1 = Except.ok out ∧
      out.state.fatal = true ∧
      (lookupStep out.state.steps ("A")).map Step.status = some Status.error := by
  obtain ⟨out, h1, h2, h3, _⟩ := fatalError_spec cfg0 sA ("boom") 1 (by decide)
  exact ⟨out, h1, h2,
    h3 ("A") stA (by decide) (by decide) (Or.inr (by decide))⟩

end CfCommon
